import Mathlib

/-!
Verification development for a blood-donor directory application.
The definitions below are a shallow embedding of the application source:
the blood-type compatibility table, the donation-eligibility evaluator,
the directory query engine (search, filters, sorting), the dual-mode
persistence gateway (local browser storage and a remote row store), and
the optimistic-delete synchronization handler.
-/

namespace BloodLine

/-- The eight ABO/Rh blood types, from the BloodGroup union in types.ts. -/
inductive BloodGroup where
  | Ap | An | Bp | Bn | ABp | ABn | Op | On
deriving DecidableEq, Repr

/-- The display code of a blood type, as the string literals of the source. -/
def bgCode : BloodGroup → String
  | .Ap => "A+"
  | .An => "A-"
  | .Bp => "B+"
  | .Bn => "B-"
  | .ABp => "AB+"
  | .ABn => "AB-"
  | .Op => "O+"
  | .On => "O-"

/-- Position in the canonical BLOOD_GROUPS array of constants.tsx,
used by the blood-group sort key via indexOf. -/
def bgIndex : BloodGroup → Int
  | .Ap => 0
  | .An => 1
  | .Bp => 2
  | .Bn => 3
  | .ABp => 4
  | .ABn => 5
  | .Op => 6
  | .On => 7

/-- canDonateTo sets of COMPATIBILITY_MAP in constants.tsx. -/
def canDonateTo : BloodGroup → List BloodGroup
  | .Ap => [.Ap, .ABp]
  | .An => [.Ap, .An, .ABp, .ABn]
  | .Bp => [.Bp, .ABp]
  | .Bn => [.Bp, .Bn, .ABp, .ABn]
  | .ABp => [.ABp]
  | .ABn => [.ABp, .ABn]
  | .Op => [.Op, .Ap, .Bp, .ABp]
  | .On => [.Ap, .An, .Bp, .Bn, .ABp, .ABn, .Op, .On]

/-- canReceiveFrom sets of COMPATIBILITY_MAP in constants.tsx. -/
def canReceiveFrom : BloodGroup → List BloodGroup
  | .Ap => [.Ap, .An, .Op, .On]
  | .An => [.An, .On]
  | .Bp => [.Bp, .Bn, .Op, .On]
  | .Bn => [.Bn, .On]
  | .ABp => [.Ap, .An, .Bp, .Bn, .ABp, .ABn, .Op, .On]
  | .ABn => [.An, .Bn, .ABn, .On]
  | .Op => [.Op, .On]
  | .On => [.On]

/-- The Person record of types.ts. Timestamps are epoch milliseconds
(JavaScript numbers produced by Date.now), embedded as integers; the
optional fields of the TypeScript interface become Option. -/
structure Person where
  id : String
  name : String
  phoneNumber : String
  bloodGroup : BloodGroup
  lastDonationDate : Option Int
  notes : Option String
  groupIds : Option (List String)
  location : Option String
deriving DecidableEq, Repr

/-- The Group record of types.ts. -/
structure Group where
  id : String
  name : String
  color : String
deriving DecidableEq, Repr

/-! ## Eligibility evaluator (App.tsx) -/

/-- Milliseconds per day, the divisor 1000 * 60 * 60 * 24 of App.tsx. -/
def msPerDay : ℚ := 86400000

/-- RECOVERY_DAYS constant of App.tsx. -/
def RECOVERY_DAYS : ℚ := 56

/-- Elapsed days since the last donation: the JavaScript floating
division diff / msPerDay, embedded as exact rational division. -/
def daysSince (now last : Int) : ℚ := ((now - last : Int) : ℚ) / msPerDay

/-- isEligible of App.tsx: a donor with no last-donation timestamp is
eligible; otherwise eligible iff elapsed days reach RECOVERY_DAYS. -/
def isEligible (p : Person) (now : Int) : Bool :=
  match p.lastDonationDate with
  | none => true
  | some last => decide (RECOVERY_DAYS ≤ daysSince now last)

/-- getRecoveryInfo of App.tsx: null when there is no last-donation
timestamp or the donor has recovered; otherwise the ceiling of the days
still to wait. -/
def getRecoveryInfo (p : Person) (now : Int) : Option Int :=
  match p.lastDonationDate with
  | none => none
  | some last =>
    if daysSince now last < RECOVERY_DAYS
    then some ⌈RECOVERY_DAYS - daysSince now last⌉
    else none

/-! ## String utilities modelling the JavaScript string operations -/

/-- Whether the second list is an initial segment of the first. -/
def charsStartWith : List Char → List Char → Bool
  | _, [] => true
  | [], _ :: _ => false
  | a :: as, b :: bs => a == b && charsStartWith as bs

/-- Whether the second list occurs contiguously inside the first:
the semantics of JavaScript String.prototype.includes. -/
def charsContain : List Char → List Char → Bool
  | [], sub => sub.isEmpty
  | a :: as, sub => charsStartWith (a :: as) sub || charsContain as sub

/-- String.prototype.includes. -/
def jsIncludes (s sub : String) : Bool :=
  charsContain s.toList sub.toList

/-- String.prototype.toLowerCase, restricted to the ASCII range the
application data uses. -/
def lowerStr (s : String) : String :=
  ⟨s.toList.map Char.toLower⟩

/-- Lexicographic three-way comparison on code points, the embedding of
String.prototype.localeCompare for the name sort. -/
def charsCmp : List Char → List Char → Int
  | [], [] => 0
  | [], _ :: _ => -1
  | _ :: _, [] => 1
  | a :: as, b :: bs =>
    if a.toNat < b.toNat then -1
    else if b.toNat < a.toNat then 1
    else charsCmp as bs

/-- localeCompare embedding on strings. -/
def strCmp (a b : String) : Int := charsCmp a.toList b.toList

/-! ## Directory query engine (filteredAndSortedPeople of App.tsx) -/

/-- The search predicate of filteredAndSortedPeople: the query is
lowercased once; the name and the blood code are lowercased before the
substring test, the phone number is not. -/
def matchesSearch (p : Person) (searchQuery : String) : Bool :=
  let q := lowerStr searchQuery
  jsIncludes (lowerStr p.name) q
    || jsIncludes p.phoneNumber q
    || jsIncludes (lowerStr (bgCode p.bloodGroup)) q

/-- Blood-type filter: none embeds the All option. -/
def matchesBlood (p : Person) (f : Option BloodGroup) : Bool :=
  match f with
  | none => true
  | some bg => decide (p.bloodGroup = bg)

/-- Group filter: none embeds the All option; a missing groupIds field
defaults to the empty array as in (p.groupIds || []). -/
def matchesGroup (p : Person) (f : Option String) : Bool :=
  match f with
  | none => true
  | some gid => (p.groupIds.getD []).contains gid

/-- The four sort keys of the sortBy state. -/
inductive SortKey where
  | nameAsc | nameDesc | bloodGroup | status
deriving DecidableEq, Repr

/-- The comparator passed to Array.prototype.sort, per sort key. The
status key consults the eligibility evaluator, hence the clock. -/
def cmpFor (sk : SortKey) (now : Int) (a b : Person) : Int :=
  match sk with
  | .nameAsc => strCmp a.name b.name
  | .nameDesc => strCmp b.name a.name
  | .bloodGroup => bgIndex a.bloodGroup - bgIndex b.bloodGroup
  | .status =>
    let aE := isEligible a now
    let bE := isEligible b now
    if aE = bE then strCmp a.name b.name else if aE then -1 else 1

/-- Stable insertion of one element into a list sorted by a three-way
comparator: the element goes after every earlier element that does not
compare strictly greater. -/
def insertCmp (cmp : Person → Person → Int) (x : Person) : List Person → List Person
  | [] => [x]
  | y :: ys => if cmp x y < 0 then x :: y :: ys else y :: insertCmp cmp x ys

/-- Stable comparator sort, the embedding of Array.prototype.sort. -/
def sortCmp (cmp : Person → Person → Int) (l : List Person) : List Person :=
  l.foldl (fun acc x => insertCmp cmp x acc) []

/-- filteredAndSortedPeople of App.tsx: conjunctive filtering by search
text, blood-type filter and group filter, then the comparator sort. The
clock reading is an explicit argument here because the status comparator
reads Date.now through isEligible. -/
def queryPeople (people : List Person) (searchQuery : String)
    (bloodFilter : Option BloodGroup) (groupFilter : Option String)
    (sk : SortKey) (now : Int) : List Person :=
  let res := people.filter fun p =>
    matchesSearch p searchQuery && matchesBlood p bloodFilter && matchesGroup p groupFilter
  sortCmp (cmpFor sk now) res

/-! ## Persistence gateway, local backing store (database.ts, the
branches taken when this.supabase is null) -/

/-- The persisted blob behind one localStorage key. getItem yields null
for a missing key; null and the empty string are falsy, collapsed into
absent. A non-empty string either parses as a JSON collection
(wellFormed) or makes JSON.parse throw (malformed). -/
inductive StoredBlob (α : Type) where
  | absent
  | malformed
  | wellFormed (xs : List α)
deriving DecidableEq

/-- Failures a gateway operation can raise. parseError embeds the
SyntaxError thrown by JSON.parse on a malformed blob. -/
inductive DbError where
  | parseError
deriving DecidableEq, Repr

/-- The local backing store: the two localStorage keys of database.ts,
one blob for donors and one for groups. -/
structure LocalState where
  peopleBlob : StoredBlob Person
  groupsBlob : StoredBlob Group
deriving DecidableEq

/-- fetchPeople, local branch: a falsy blob is the empty collection, a
well-formed blob parses to its contents, a malformed blob throws. -/
def fetchPeopleLocal (s : LocalState) : Except DbError (List Person) :=
  match s.peopleBlob with
  | .absent => .ok []
  | .malformed => .error .parseError
  | .wellFormed ps => .ok ps

/-- fetchGroups, local branch. -/
def fetchGroupsLocal (s : LocalState) : Except DbError (List Group) :=
  match s.groupsBlob with
  | .absent => .ok []
  | .malformed => .error .parseError
  | .wellFormed gs => .ok gs

/-- The findIndex / assign-or-push body of savePerson, local branch:
replace the first record carrying the identifier, else append. -/
def upsertPerson (ps : List Person) (p : Person) : List Person :=
  match ps with
  | [] => [p]
  | q :: qs => if q.id = p.id then p :: qs else q :: upsertPerson qs p

/-- savePerson, local branch: read the full collection (propagating a
parse failure), upsert, write the serialized collection back. -/
def savePersonLocal (s : LocalState) (p : Person) : Except DbError LocalState :=
  match fetchPeopleLocal s with
  | .error e => .error e
  | .ok ps => .ok { s with peopleBlob := .wellFormed (upsertPerson ps p) }

/-- deletePerson, local branch: filter the identifier out and write back. -/
def deletePersonLocal (s : LocalState) (id : String) : Except DbError LocalState :=
  match fetchPeopleLocal s with
  | .error e => .error e
  | .ok ps =>
    .ok { s with peopleBlob := .wellFormed (ps.filter fun p => decide (p.id ≠ id)) }

/-- saveGroup, local branch: unconditionally push the group and write
back — no findIndex, unlike savePerson. -/
def saveGroupLocal (s : LocalState) (g : Group) : Except DbError LocalState :=
  match fetchGroupsLocal s with
  | .error e => .error e
  | .ok gs => .ok { s with groupsBlob := .wellFormed (gs ++ [g]) }

/-- deleteGroup, local branch: filter the identifier out of the group
collection and write back; the donor blob is not touched. -/
def deleteGroupLocal (s : LocalState) (id : String) : Except DbError LocalState :=
  match fetchGroupsLocal s with
  | .error e => .error e
  | .ok gs =>
    .ok { s with groupsBlob := .wellFormed (gs.filter fun g => decide (g.id ≠ id)) }

/-! ## Persistence gateway, remote backing store (database.ts, the
branches taken when this.supabase is set). The row store itself is the
external relational backend; per the specification its tables are keyed
on id and upserts key on id, which is how upsertRow and deleteRows are
modelled. The field translation in both directions is taken verbatim
from fetchPeople and savePerson. -/

/-- A row of the remote people table, with its snake_case columns. -/
structure PersonRow where
  id : String
  name : String
  phone_number : String
  blood_group : BloodGroup
  last_donation_date : Option Int
  notes : Option String
  group_ids : Option (List String)
  location : Option String
deriving DecidableEq, Repr

/-- A row of the remote groups table. -/
structure GroupRow where
  id : String
  name : String
  color : String
deriving DecidableEq, Repr

/-- The remote backend state: one row list per table. -/
structure RemoteState where
  people : List PersonRow
  groups : List GroupRow
deriving DecidableEq

/-- The payload construction of savePerson, remote branch: application
attributes renamed to the snake_case columns, values passed through. -/
def personToRow (p : Person) : PersonRow :=
  { id := p.id, name := p.name, phone_number := p.phoneNumber,
    blood_group := p.bloodGroup, last_donation_date := p.lastDonationDate,
    notes := p.notes, group_ids := p.groupIds, location := p.location }

/-- The row mapping of fetchPeople, remote branch. The truthiness test
on last_donation_date sends both null and 0 to undefined; group_ids
falls back to the empty array when null. -/
def rowToPerson (r : PersonRow) : Person :=
  { id := r.id, name := r.name, phoneNumber := r.phone_number,
    bloodGroup := r.blood_group,
    lastDonationDate :=
      match r.last_donation_date with
      | none => none
      | some v => if v = 0 then none else some v,
    notes := r.notes,
    groupIds := some (r.group_ids.getD []),
    location := r.location }

/-- Keyed upsert on the people table: replace the rows carrying the
identifier when one exists, else insert. -/
def upsertRow (rows : List PersonRow) (r : PersonRow) : List PersonRow :=
  if rows.any fun x => decide (x.id = r.id)
  then rows.map fun x => if x.id = r.id then r else x
  else rows ++ [r]

/-- Keyed upsert on the groups table. -/
def upsertGroupRow (rows : List GroupRow) (r : GroupRow) : List GroupRow :=
  if rows.any fun x => decide (x.id = r.id)
  then rows.map fun x => if x.id = r.id then r else x
  else rows ++ [r]

/-- fetchPeople, remote branch: select every row and translate. -/
def fetchPeopleRemote (st : RemoteState) : List Person :=
  st.people.map rowToPerson

/-- fetchGroups, remote branch. -/
def fetchGroupsRemote (st : RemoteState) : List Group :=
  st.groups.map fun g => { id := g.id, name := g.name, color := g.color }

/-- savePerson, remote branch (the success path of the upsert call). -/
def savePersonRemote (st : RemoteState) (p : Person) : RemoteState :=
  { st with people := upsertRow st.people (personToRow p) }

/-- saveGroup, remote branch. -/
def saveGroupRemote (st : RemoteState) (g : Group) : RemoteState :=
  { st with groups := upsertGroupRow st.groups { id := g.id, name := g.name, color := g.color } }

/-- deleteGroup, remote branch: delete the matching rows of the groups
table; the people table is not touched. -/
def deleteGroupRemote (st : RemoteState) (id : String) : RemoteState :=
  { st with groups := st.groups.filter fun g => decide (g.id ≠ id) }

/-! ## Synchronization controller (handleDeletePerson of App.tsx) -/

/-- handleDeletePerson of App.tsx, with the environment outcomes made
explicit: confirmed embeds the window.confirm answer, deleteOk the
success of the gateway delete call, and refetch the donor collection the
silent background refresh returns when it succeeds (refreshData catches
its own fetch failure, leaving the optimistic list in place). The result
is the final in-memory donor collection together with whether a failure
alert was surfaced. -/
def handleDeletePerson (people : List Person) (id : String)
    (confirmed : Bool) (deleteOk : Bool) (refetch : Option (List Person)) :
    List Person × Bool :=
  if !confirmed then (people, false)
  else
    let originalPeople := people
    let optimistic := people.filter fun p => decide (p.id ≠ id)
    if deleteOk then
      match refetch with
      | some fetched => (fetched, false)
      | none => (optimistic, false)
    else
      (originalPeople, true)

/-! ## Helper lemmas -/

/-- The eligibility test of a donor with a timestamp is an exact integer
comparison of the elapsed milliseconds against 56 days. -/
theorem isEligible_some_iff (p : Person) (now last : Int)
    (h : p.lastDonationDate = some last) :
    isEligible p now = decide (4838400000 ≤ now - last) := by
  simp only [isEligible, h, RECOVERY_DAYS, daysSince, msPerDay]
  congr 1
  rw [eq_iff_iff, le_div_iff₀ (by norm_num : (0:ℚ) < 86400000)]
  rw [show (56:ℚ) * 86400000 = ((4838400000 : Int) : ℚ) by norm_num, Int.cast_le]

/-- The recovery guard of a donor with a timestamp is an exact integer
comparison of the elapsed milliseconds against 56 days. -/
theorem getRecoveryInfo_some (p : Person) (now last : Int)
    (h : p.lastDonationDate = some last) :
    getRecoveryInfo p now =
      if now - last < 4838400000
      then some ⌈RECOVERY_DAYS - daysSince now last⌉ else none := by
  simp only [getRecoveryInfo, h, RECOVERY_DAYS, daysSince, msPerDay]
  congr 1
  rw [eq_iff_iff, div_lt_iff₀ (by norm_num : (0:ℚ) < 86400000)]
  rw [show (56:ℚ) * 86400000 = ((4838400000 : Int) : ℚ) by norm_num, Int.cast_lt]

/-- The saved donor is in the upserted collection. -/
theorem mem_upsertPerson (p : Person) (ps : List Person) :
    p ∈ upsertPerson ps p := by
  induction ps with
  | nil => simp [upsertPerson]
  | cons q qs ih =>
    by_cases hqp : q.id = p.id
    · simp [upsertPerson, hqp]
    · simp [upsertPerson, hqp, ih]

/-- The identifiers of the upserted collection: unchanged on an update,
extended by the new identifier on an append. -/
theorem upsertPerson_ids (p : Person) (ps : List Person) :
    (upsertPerson ps p).map Person.id =
      if ps.any fun q => decide (q.id = p.id)
      then ps.map Person.id else ps.map Person.id ++ [p.id] := by
  induction ps with
  | nil => simp [upsertPerson]
  | cons q qs ih =>
    by_cases hqp : q.id = p.id
    · simp [upsertPerson, hqp]
    · cases hq : qs.any fun x => decide (x.id = p.id) <;>
        simp [upsertPerson, hqp, ih, hq]

/-- When no stored identifier repeats, the findIndex upsert is an
update in place of the matching record, else an append. -/
theorem upsertPerson_eq_of_nodup (p : Person) (ps : List Person)
    (h : (ps.map Person.id).Nodup) :
    upsertPerson ps p =
      if ps.any fun q => decide (q.id = p.id)
      then ps.map fun q => if q.id = p.id then p else q
      else ps ++ [p] := by
  induction ps with
  | nil => simp [upsertPerson]
  | cons q qs ih =>
    simp only [List.map_cons, List.nodup_cons] at h
    obtain ⟨hq_not, hqs⟩ := h
    by_cases hqp : q.id = p.id
    · have hrest : ∀ x ∈ qs, ¬(x.id = p.id) := by
        intro x hx hxe
        exact hq_not (by rw [hqp, ← hxe]; exact List.mem_map_of_mem Person.id hx)
      have hmap : (qs.map fun x => if x.id = p.id then p else x) = qs := by
        rw [show qs = qs.map id by simp]
        rw [List.map_map]
        refine List.map_congr_left ?_
        intro x hx
        simp [hrest x (by simpa using hx)]
      simp [upsertPerson, hqp, hmap]
    · simp only [upsertPerson, if_neg hqp]
      rw [ih hqs]
      simp only [List.any_cons, decide_eq_false hqp, Bool.false_or, List.map_cons,
        if_neg hqp, List.cons_append]
      cases hq : qs.any fun x => decide (x.id = p.id) <;> simp [hq]

/-- The findIndex upsert never creates a duplicate identifier. -/
theorem upsertPerson_nodup (p : Person) (ps : List Person)
    (h : (ps.map Person.id).Nodup) :
    ((upsertPerson ps p).map Person.id).Nodup := by
  rw [upsertPerson_ids]
  cases hq : ps.any fun q => decide (q.id = p.id) with
  | true => simpa using h
  | false =>
    have hnot : p.id ∉ ps.map Person.id := by
      intro hmem
      obtain ⟨x, hx, hxe⟩ := List.mem_map.mp hmem
      have := List.any_eq_false.mp hq x hx
      simp [hxe] at this
    simp [List.nodup_append, h, hnot]

/-- The identifiers of the remote keyed upsert. -/
theorem upsertRow_ids (rows : List PersonRow) (r : PersonRow) :
    (upsertRow rows r).map PersonRow.id =
      if rows.any fun x => decide (x.id = r.id)
      then rows.map PersonRow.id else rows.map PersonRow.id ++ [r.id] := by
  unfold upsertRow
  split
  · rw [List.map_map]
    refine List.map_congr_left ?_
    intro x _
    by_cases hx : x.id = r.id <;> simp [Function.comp, hx]
  · simp

/-- The remote keyed upsert never creates a duplicate identifier. -/
theorem upsertRow_nodup (rows : List PersonRow) (r : PersonRow)
    (h : (rows.map PersonRow.id).Nodup) :
    ((upsertRow rows r).map PersonRow.id).Nodup := by
  rw [upsertRow_ids]
  cases hq : rows.any fun x => decide (x.id = r.id) with
  | true => simpa using h
  | false =>
    have hnot : r.id ∉ rows.map PersonRow.id := by
      intro hmem
      obtain ⟨x, hx, hxe⟩ := List.mem_map.mp hmem
      have := List.any_eq_false.mp hq x hx
      simp [hxe] at this
    simp [List.nodup_append, h, hnot]

/-- The upserted row is in the resulting table. -/
theorem mem_upsertRow (rows : List PersonRow) (r : PersonRow) :
    r ∈ upsertRow rows r := by
  unfold upsertRow
  split
  · next hany =>
    obtain ⟨x, hx, hxe⟩ := List.any_eq_true.mp hany
    exact List.mem_map.mpr ⟨x, hx, by simp [of_decide_eq_true hxe]⟩
  · simp

/-- The remote field translation round-trips exactly whenever the donor
has a group-membership array and the timestamp is not the falsy zero. -/
theorem rowToPerson_personToRow (p : Person)
    (h0 : p.lastDonationDate ≠ some 0) (hg : p.groupIds ≠ none) :
    rowToPerson (personToRow p) = p := by
  obtain ⟨i, n, ph, bg, last, nt, gids, loc⟩ := p
  cases last <;> cases gids <;> simp_all [rowToPerson, personToRow]

/-- The includes test with the empty search text always succeeds. -/
theorem charsContain_nil (l : List Char) : charsContain l [] = true := by
  cases l <;> simp [charsContain, charsStartWith]

/-! ## Claim theorems -/

/-- C8. Compatibility table bidirectional consistency: for every pair of
the 8 blood types, Y is in the canDonateTo set of X exactly when X is in
the canReceiveFrom set of Y. -/
theorem c8_compatibility_bidirectional (x y : BloodGroup) :
    y ∈ canDonateTo x ↔ x ∈ canReceiveFrom y := by
  cases x <;> cases y <;> decide

/-- Donor used by the C2 counterexample: last donation at epoch 0. -/
def c2Donor : Person := ⟨"c2", "Boundary", "000", .Op, some 0, none, none, none⟩

/-- C2 counterexample. At elapsed days exactly 56 (clock reading
4838400000 ms after the donation) the donor is eligible, but
getRecoveryInfo returns null rather than the 0 the claim asserts, so
recoveryDaysRemaining equal to 0 is not equivalent to eligibility
there. -/
theorem c2_boundary_counterexample :
    daysSince 4838400000 0 = 56 ∧
    isEligible c2Donor 4838400000 = true ∧
    getRecoveryInfo c2Donor 4838400000 ≠ some 0 := by
  refine ⟨by norm_num [daysSince, msPerDay], ?_, ?_⟩
  · rw [isEligible_some_iff c2Donor 4838400000 0 rfl]; decide
  · rw [getRecoveryInfo_some c2Donor 4838400000 0 rfl]
    norm_num
    decide

/-- C2 amended. For a donor with a last-donation timestamp: the donor is
eligible exactly when recoveryDaysRemaining is null (not 0); while
ineligible, recoveryDaysRemaining is the ceiling of 56 minus the elapsed
days and is a positive integer. At the 56-day boundary the donor is
therefore eligible with a null countdown. -/
theorem c2_eligibility_boundary (p : Person) (now last : Int)
    (h : p.lastDonationDate = some last) :
    (isEligible p now = true ↔ getRecoveryInfo p now = none) ∧
    (isEligible p now = false →
      getRecoveryInfo p now = some ⌈RECOVERY_DAYS - daysSince now last⌉ ∧
      1 ≤ ⌈RECOVERY_DAYS - daysSince now last⌉) := by
  simp only [isEligible, getRecoveryInfo, h]
  by_cases hc : daysSince now last < RECOVERY_DAYS
  · have hne : ¬(RECOVERY_DAYS ≤ daysSince now last) := not_le.mpr hc
    refine ⟨?_, ?_⟩
    · simp [hc, hne]
    · intro _
      have hpos : 0 < ⌈RECOVERY_DAYS - daysSince now last⌉ :=
        Int.ceil_pos.mpr (by linarith)
      exact ⟨by simp [hc], by omega⟩
  · have hle : RECOVERY_DAYS ≤ daysSince now last := not_lt.mp hc
    refine ⟨by simp [hc, hle], ?_⟩
    intro hfalse
    simp [hle] at hfalse

/-- C2 witness: a donor who donated at epoch 0, observed at epoch 0, is
ineligible with exactly 56 recovery days remaining. -/
theorem c2_eligibility_boundary_witness :
    isEligible c2Donor 0 = false ∧
    (getRecoveryInfo c2Donor 0 = some ⌈RECOVERY_DAYS - daysSince 0 0⌉ ∧
      1 ≤ ⌈RECOVERY_DAYS - daysSince 0 0⌉) := by
  have hfalse : isEligible c2Donor 0 = false := by
    rw [isEligible_some_iff c2Donor 0 0 rfl]; decide
  exact ⟨hfalse, (c2_eligibility_boundary c2Donor 0 0 rfl).2 hfalse⟩

/-- C6. Optimistic delete rollback: when the user confirms the delete
and the gateway call fails, the final in-memory donor collection is
exactly the pre-mutation snapshot and a failure alert is surfaced,
whatever the background refetch would have returned. -/
theorem c6_optimistic_delete_rollback (people : List Person) (id : String)
    (refetch : Option (List Person)) :
    handleDeletePerson people id true false refetch = (people, true) := rfl

/-- Donor used by the C1 counterexample, a member of group g1. -/
def c1Donor : Person := ⟨"d1", "Dana", "555", .Op, none, none, some ["g1"], none⟩

/-- Group g1 of the C1 counterexample. -/
def c1Group : Group := ⟨"g1", "Staff", "blue"⟩

/-- Local store of the C1 counterexample before the group deletion. -/
def c1Store : LocalState := ⟨.wellFormed [c1Donor], .wellFormed [c1Group]⟩

/-- Local store of the C1 counterexample after the group deletion. -/
def c1StoreAfter : LocalState := ⟨.wellFormed [c1Donor], .wellFormed []⟩

/-- C1 counterexample. Deleting group g1 from a store holding one donor
whose membership set is exactly g1 succeeds, yet a subsequent fetch of
the donor collection still returns that donor with g1 in its
group-membership set: the gateway performs no cascade. -/
theorem c1_deleteGroup_no_cascade_counterexample :
    deleteGroupLocal c1Store "g1" = .ok c1StoreAfter ∧
    fetchPeopleLocal c1StoreAfter = .ok [c1Donor] ∧
    "g1" ∈ c1Donor.groupIds.getD [] := by
  refine ⟨rfl, rfl, ?_⟩
  decide

/-- C1 amended. deleteGroup removes every group record carrying the
identifier from the group collection, in both backing stores, but leaves
the donor collection bit-for-bit untouched, so donors keep dangling
references to the deleted group. -/
theorem c1_deleteGroup_amended (s : LocalState) (gs : List Group)
    (gid : String) (st : RemoteState)
    (hs : fetchGroupsLocal s = .ok gs) :
    (deleteGroupLocal s gid =
        .ok { s with groupsBlob := .wellFormed (gs.filter fun g => decide (g.id ≠ gid)) } ∧
      ({ s with groupsBlob := .wellFormed (gs.filter fun g => decide (g.id ≠ gid)) } :
          LocalState).peopleBlob = s.peopleBlob ∧
      ∀ g ∈ gs.filter fun g => decide (g.id ≠ gid), g.id ≠ gid) ∧
    ((deleteGroupRemote st gid).people = st.people ∧
      ∀ g ∈ (deleteGroupRemote st gid).groups, g.id ≠ gid) := by
  refine ⟨⟨?_, rfl, ?_⟩, rfl, ?_⟩
  · simp [deleteGroupLocal, hs]
  · intro g hg
    have := (List.mem_filter.mp hg).2
    simpa using this
  · intro g hg
    have := (List.mem_filter.mp hg).2
    simpa using this

/-- C1 witness: deleting g1 from the concrete one-donor one-group local
store and from a one-row remote store keeps both donor collections
unchanged while purging the group. -/
theorem c1_deleteGroup_amended_witness :
    deleteGroupLocal c1Store "g1" =
      .ok { c1Store with
            groupsBlob := .wellFormed ([c1Group].filter fun g => decide (g.id ≠ "g1")) } ∧
    (deleteGroupRemote ⟨[], [⟨"g1", "Staff", "blue"⟩]⟩ "g1").people = [] ∧
    ∀ g ∈ (deleteGroupRemote ⟨[], [⟨"g1", "Staff", "blue"⟩]⟩ "g1").groups, g.id ≠ "g1" := by
  have h := c1_deleteGroup_amended c1Store [c1Group] "g1"
    ⟨[], [⟨"g1", "Staff", "blue"⟩]⟩ rfl
  exact ⟨h.1.1, h.2.1, h.2.2⟩

/-- Local store of the C3 counterexample: a corrupt donor blob. -/
def c3BadPeople : LocalState := ⟨.malformed, .absent⟩

/-- Local store of the C3 counterexample: a corrupt group blob. -/
def c3BadGroups : LocalState := ⟨.absent, .malformed⟩

/-- C3 counterexample. On a corrupt persisted blob the local fetch does
not return the empty collection: JSON.parse throws and the error
propagates to the caller of fetchPeople and fetchGroups. -/
theorem c3_malformed_read_counterexample :
    fetchPeopleLocal c3BadPeople = .error .parseError ∧
    fetchGroupsLocal c3BadGroups = .error .parseError := ⟨rfl, rfl⟩

/-- C3 amended. A missing or empty local blob reads as the empty
collection with no error, but a malformed blob makes the local fetch
fail with a parse error that propagates to the caller — local reads are
not unconditionally error-free. -/
theorem c3_local_read_amended (s : LocalState) :
    (s.peopleBlob = .absent → fetchPeopleLocal s = .ok []) ∧
    (s.groupsBlob = .absent → fetchGroupsLocal s = .ok []) ∧
    (s.peopleBlob = .malformed → fetchPeopleLocal s = .error .parseError) ∧
    (s.groupsBlob = .malformed → fetchGroupsLocal s = .error .parseError) := by
  refine ⟨?_, ?_, ?_, ?_⟩ <;> intro h <;>
    simp [fetchPeopleLocal, fetchGroupsLocal, h]

/-- C3 witness: the empty-store and corrupt-store cases evaluated on
concrete stores. -/
theorem c3_local_read_amended_witness :
    fetchPeopleLocal c3BadGroups = .ok [] ∧
    fetchGroupsLocal c3BadGroups = .error .parseError :=
  ⟨(c3_local_read_amended c3BadGroups).1 rfl,
   (c3_local_read_amended c3BadGroups).2.2.2 rfl⟩

/-- C10. The local saveGroup is append-only: when the saved group
identifier is already stored, the blob becomes the old collection with
the group pushed at the end, leaving two records with that identifier —
unlike savePerson, which updates in place. -/
theorem c10_saveGroup_local_append (s : LocalState) (gs : List Group) (g : Group)
    (hs : s.groupsBlob = .wellFormed gs) (hmem : g.id ∈ gs.map Group.id) :
    saveGroupLocal s g = .ok { s with groupsBlob := .wellFormed (gs ++ [g]) } ∧
    2 ≤ ((gs ++ [g]).filter fun x => decide (x.id = g.id)).length := by
  refine ⟨by simp [saveGroupLocal, fetchGroupsLocal, hs], ?_⟩
  obtain ⟨x, hx, hxe⟩ := List.mem_map.mp hmem
  have hxf : x ∈ gs.filter fun y => decide (y.id = g.id) :=
    List.mem_filter.mpr ⟨hx, by simp [hxe]⟩
  have h1 : 1 ≤ (gs.filter fun y => decide (y.id = g.id)).length :=
    List.length_pos_of_mem hxf
  rw [List.filter_append]
  simp only [List.length_append]
  have h2 : ((([g]).filter fun y => decide (y.id = g.id))).length = 1 := by simp
  omega

/-- C10 witness: saving a group whose identifier g1 is already stored
appends a duplicate. -/
theorem c10_saveGroup_local_append_witness :
    saveGroupLocal ⟨.absent, .wellFormed [⟨"g1", "Staff", "blue"⟩]⟩ ⟨"g1", "VIP", "red"⟩ =
      .ok ⟨.absent, .wellFormed [⟨"g1", "Staff", "blue"⟩, ⟨"g1", "VIP", "red"⟩]⟩ ∧
    2 ≤ (([⟨"g1", "Staff", "blue"⟩, (⟨"g1", "VIP", "red"⟩ : Group)]).filter
          fun x => decide (x.id = "g1")).length := by
  have h := c10_saveGroup_local_append ⟨.absent, .wellFormed [⟨"g1", "Staff", "blue"⟩]⟩
    [⟨"g1", "Staff", "blue"⟩] ⟨"g1", "VIP", "red"⟩ rfl (by decide)
  exact h

/-- The includes test against the empty search text always succeeds. -/
theorem jsIncludes_empty (s : String) : jsIncludes s "" = true :=
  charsContain_nil s.toList

/-- The search predicate as the specification words it: a
case-insensitive substring match against the name, the phone number, or
the blood-type code. Stated from the spec sentence, for comparison with
matchesSearch, which is taken from the code. -/
def specCaseInsensitiveMatch (p : Person) (q : String) : Bool :=
  jsIncludes (lowerStr p.name) (lowerStr q)
    || jsIncludes (lowerStr p.phoneNumber) (lowerStr q)
    || jsIncludes (lowerStr (bgCode p.bloodGroup)) (lowerStr q)

/-- Donor of the C7 counterexample, with an uppercase freeform phone. -/
def c7PhoneDonor : Person := ⟨"c7p", "Zed", "ABC", .Op, none, none, none, none⟩

/-- C7 counterexample. The search text ABC is a case-insensitive
substring of the phone number ABC, yet the code predicate rejects the
donor: the query is lowercased but the phone number is compared without
lowercasing, so the match on phone numbers is not case-insensitive. -/
theorem c7_search_counterexample :
    specCaseInsensitiveMatch c7PhoneDonor "ABC" = true ∧
    matchesSearch c7PhoneDonor "ABC" = false := by decide

/-- C7 Alice donor for the search scenarios. -/
def c7Alice : Person := ⟨"p1", "Alice", "111", .Ap, none, none, some [], none⟩

/-- C7 Bob donor for the search scenarios. -/
def c7Bob : Person := ⟨"p2", "Bob", "222", .On, none, none, some [], none⟩

/-- C7 amended. A donor matches exactly when the lowercased search text
is a substring of the lowercased name, of the raw phone number (this
side is case-sensitive), or of the lowercased blood-type code; empty
search text matches every donor; and the two spec scenarios hold:
searching ali over Alice(A+) and Bob(O-) returns exactly Alice, and so
does searching the plus sign. -/
theorem c7_search_amended (p : Person) (q : String) :
    matchesSearch p q =
      (jsIncludes (lowerStr p.name) (lowerStr q)
        || jsIncludes p.phoneNumber (lowerStr q)
        || jsIncludes (lowerStr (bgCode p.bloodGroup)) (lowerStr q)) ∧
    matchesSearch p "" = true ∧
    queryPeople [c7Alice, c7Bob] "ali" none none .nameAsc 0 = [c7Alice] ∧
    queryPeople [c7Alice, c7Bob] "+" none none .nameAsc 0 = [c7Alice] := by
  refine ⟨rfl, ?_, by decide, by decide⟩
  have hl : lowerStr "" = "" := by decide
  simp [matchesSearch, hl, jsIncludes_empty]

/-- Donor of the C4 counterexample: a last-donation timestamp of 0. -/
def c4ZeroDonor : Person := ⟨"c4", "Zero", "999", .Ap, some 0, none, some [], none⟩

/-- C4 counterexample. Saving a donor whose last-donation timestamp is
the epoch value 0 to the remote store and fetching back does not return
identical attributes: the read-side truthiness test on
last_donation_date turns 0 into an absent timestamp. -/
theorem c4_remote_roundtrip_counterexample :
    c4ZeroDonor ∉ fetchPeopleRemote (savePersonRemote ⟨[], []⟩ c4ZeroDonor) ∧
    fetchPeopleRemote (savePersonRemote ⟨[], []⟩ c4ZeroDonor) =
      [{ c4ZeroDonor with lastDonationDate := none }] := by decide

/-- C4 amended. The local round trip is exact for every donor: saveDonor
rewrites the blob with the upserted collection, a subsequent fetch
returns it, and the saved donor is in it with identical attributes. The
remote round trip is exact provided the donor has a group-membership
array and a timestamp other than the falsy 0; a zero timestamp is read
back as absent and an absent group array as empty. -/
theorem c4_roundtrip_amended (s : LocalState) (ps : List Person) (p : Person)
    (st : RemoteState) (hL : fetchPeopleLocal s = .ok ps) :
    (savePersonLocal s p = .ok { s with peopleBlob := .wellFormed (upsertPerson ps p) } ∧
      fetchPeopleLocal { s with peopleBlob := .wellFormed (upsertPerson ps p) } =
        .ok (upsertPerson ps p) ∧
      p ∈ upsertPerson ps p) ∧
    (p.lastDonationDate ≠ some 0 → p.groupIds ≠ none →
      p ∈ fetchPeopleRemote (savePersonRemote st p)) := by
  refine ⟨⟨by simp [savePersonLocal, hL], rfl, mem_upsertPerson p ps⟩, ?_⟩
  intro h0 hg
  exact List.mem_map.mpr
    ⟨personToRow p, mem_upsertRow st.people (personToRow p),
      rowToPerson_personToRow p h0 hg⟩

/-- Donor of the C4 witness, with every optional field present. -/
def c4GoodDonor : Person :=
  ⟨"c4w", "Will", "123", .Ap, some 5, some "note", some ["g2"], some "here"⟩

/-- C4 witness: the round trip evaluated on an empty local store and an
empty remote store with a fully populated donor. -/
theorem c4_roundtrip_amended_witness :
    (savePersonLocal ⟨.absent, .absent⟩ c4GoodDonor =
        .ok ⟨.wellFormed (upsertPerson [] c4GoodDonor), .absent⟩ ∧
      fetchPeopleLocal ⟨.wellFormed (upsertPerson [] c4GoodDonor), .absent⟩ =
        .ok (upsertPerson [] c4GoodDonor) ∧
      c4GoodDonor ∈ upsertPerson [] c4GoodDonor) ∧
    c4GoodDonor ∈ fetchPeopleRemote (savePersonRemote ⟨[], []⟩ c4GoodDonor) := by
  have h := c4_roundtrip_amended ⟨.absent, .absent⟩ [] c4GoodDonor ⟨[], []⟩ rfl
  exact ⟨h.1, h.2 (by decide) (by decide)⟩

/-- C5. saveDonor is an upsert by identifier on both stores: when the
stored identifiers are duplicate-free, the local findIndex save rewrites
the blob with the record updated in place when the identifier exists and
appended otherwise, the remote keyed upsert does the same on rows, and
neither store ends up with a duplicated identifier. -/
theorem c5_savePerson_upsert (s : LocalState) (ps : List Person) (p : Person)
    (rows : List PersonRow) (r : PersonRow)
    (hs : fetchPeopleLocal s = .ok ps)
    (hids : (ps.map Person.id).Nodup) (hrids : (rows.map PersonRow.id).Nodup) :
    (savePersonLocal s p = .ok { s with peopleBlob := .wellFormed (upsertPerson ps p) }) ∧
    (upsertPerson ps p =
      if ps.any fun q => decide (q.id = p.id)
      then ps.map fun q => if q.id = p.id then p else q
      else ps ++ [p]) ∧
    ((upsertPerson ps p).map Person.id).Nodup ∧
    (upsertRow rows r =
      if rows.any fun x => decide (x.id = r.id)
      then rows.map fun x => if x.id = r.id then r else x
      else rows ++ [r]) ∧
    ((upsertRow rows r).map PersonRow.id).Nodup :=
  ⟨by simp [savePersonLocal, hs], upsertPerson_eq_of_nodup p ps hids,
    upsertPerson_nodup p ps hids, rfl, upsertRow_nodup rows r hrids⟩

/-- C5 witness donor A. -/
def c5A : Person := ⟨"idA", "Ada", "1", .Ap, none, none, some [], none⟩

/-- C5 witness donor B. -/
def c5B : Person := ⟨"idB", "Bea", "2", .Bp, none, none, some [], none⟩

/-- C5 witness donor with the identifier of A and new attributes. -/
def c5A2 : Person := ⟨"idA", "Ada Prime", "9", .An, none, none, some [], none⟩

/-- C5 witness row. -/
def c5RA : PersonRow := ⟨"idA", "Ada", "1", .Ap, none, none, some [], none⟩

/-- C5 witness replacement row with the same identifier. -/
def c5RA2 : PersonRow := ⟨"idA", "Ada Prime", "9", .An, none, none, some [], none⟩

/-- C5 witness: the upsert evaluated on a two-donor local store and a
one-row remote table, saving a record whose identifier already exists. -/
theorem c5_savePerson_upsert_witness :
    (savePersonLocal ⟨.wellFormed [c5A, c5B], .absent⟩ c5A2 =
        .ok ⟨.wellFormed (upsertPerson [c5A, c5B] c5A2), .absent⟩) ∧
    (upsertPerson [c5A, c5B] c5A2 =
      if [c5A, c5B].any fun q => decide (q.id = c5A2.id)
      then [c5A, c5B].map fun q => if q.id = c5A2.id then c5A2 else q
      else [c5A, c5B] ++ [c5A2]) ∧
    ((upsertPerson [c5A, c5B] c5A2).map Person.id).Nodup ∧
    (upsertRow [c5RA] c5RA2 =
      if [c5RA].any fun x => decide (x.id = c5RA2.id)
      then [c5RA].map fun x => if x.id = c5RA2.id then c5RA2 else x
      else [c5RA] ++ [c5RA2]) ∧
    ((upsertRow [c5RA] c5RA2).map PersonRow.id).Nodup :=
  c5_savePerson_upsert ⟨.wellFormed [c5A, c5B], .absent⟩ [c5A, c5B] c5A2
    [c5RA] c5RA2 rfl (by decide) (by decide)

/-- C9 donor Ann, who donated at epoch 0. -/
def c9Ann : Person := ⟨"a1", "Ann", "111", .Op, some 0, none, some [], none⟩

/-- C9 donor Zed, who never donated. -/
def c9Zed : Person := ⟨"z1", "Zed", "222", .Op, none, none, some [], none⟩

/-- C9 counterexample. Under the status sort key the query output is not
a function of the donor collection and the filter/sort state alone: with
the identical collection and state, the clock reading 0 (Ann still in
recovery) orders Zed first, while the clock reading 4838400000 (Ann
recovered) orders Ann first. -/
theorem c9_status_clock_counterexample :
    queryPeople [c9Zed, c9Ann] "" none none .status 0 = [c9Zed, c9Ann] ∧
    queryPeople [c9Zed, c9Ann] "" none none .status 4838400000 = [c9Ann, c9Zed] ∧
    queryPeople [c9Zed, c9Ann] "" none none .status 0 ≠
      queryPeople [c9Zed, c9Ann] "" none none .status 4838400000 := by
  have hA0 : isEligible c9Ann 0 = false := by
    rw [isEligible_some_iff c9Ann 0 0 rfl]; decide
  have hA2 : isEligible c9Ann 4838400000 = true := by
    rw [isEligible_some_iff c9Ann 4838400000 0 rfl]; decide
  have hZ0 : isEligible c9Zed 0 = true := rfl
  have hZ2 : isEligible c9Zed 4838400000 = true := rfl
  have hname : strCmp c9Ann.name c9Zed.name = -1 := by decide
  have hq : ∀ t : Int, queryPeople [c9Zed, c9Ann] "" none none .status t =
      if cmpFor .status t c9Ann c9Zed < 0 then [c9Ann, c9Zed] else [c9Zed, c9Ann] :=
    fun t => rfl
  have hc0 : cmpFor .status 0 c9Ann c9Zed = 1 := by
    simp [cmpFor, hA0, hZ0]
  have hc2 : cmpFor .status 4838400000 c9Ann c9Zed = -1 := by
    simp [cmpFor, hA2, hZ2, hname]
  have h1 : queryPeople [c9Zed, c9Ann] "" none none .status 0 = [c9Zed, c9Ann] := by
    rw [hq 0, hc0]; norm_num
  have h2 : queryPeople [c9Zed, c9Ann] "" none none .status 4838400000 = [c9Ann, c9Zed] := by
    rw [hq 4838400000, hc2]; norm_num
  exact ⟨h1, h2, by rw [h1, h2]; decide⟩

/-- C9 amended. The directory query is a pure function of the donor
collection, the filter/sort state AND the clock reading: with the clock
included in the inputs, repeated calls agree, and for every sort key
other than status the output does not depend on the clock at all. -/
theorem c9_query_clock_amended (people : List Person) (q : String)
    (bf : Option BloodGroup) (gf : Option String) (sk : SortKey) (now now2 : Int) :
    queryPeople people q bf gf sk now = queryPeople people q bf gf sk now ∧
    (sk ≠ SortKey.status →
      queryPeople people q bf gf sk now = queryPeople people q bf gf sk now2) := by
  refine ⟨rfl, fun h => ?_⟩
  cases sk with
  | nameAsc => rfl
  | nameDesc => rfl
  | bloodGroup => rfl
  | status => exact absurd rfl h

/-- C9 witness: the name-ascending query on the empty collection agrees
across two different clock readings. -/
theorem c9_query_clock_amended_witness :
    queryPeople [] "" none none SortKey.nameAsc 0 =
      queryPeople [] "" none none SortKey.nameAsc 99 :=
  (c9_query_clock_amended [] "" none none SortKey.nameAsc 0 99).2 (by decide)

end BloodLine
